import Mathlib

/-!
Verification of the debt-collector core: the completion poller
(`services/client-api/src/api/routes/calls.py`, `poll_call_completion`),
the extraction validator (`shared/schemas/call.py`, `PaymentPromise` and
`CallExtraction`) and the status-mapping helper
(`shared/twilio_sms/messages.py`, `_map_twilio_status`).

Modelling conventions:
- Parsed JSON input is a `Json` value; scalar fields are matched strictly
  by shape (boolean / number / string / null / object).
- Python `Decimal` is modelled as `Rat`; a calendar `date` as an `Int` day
  ordinal, so `date.today()` becomes an explicit `today : Int` parameter
  of the validator (the validator only ever compares dates).
- Pydantic validates fields in declaration order and runs the
  `field_validator` for `promise` right after that field parses — but only
  when the field was supplied in the input: for a missing key the default
  `None` is applied without running the validator (`validate_default` is
  False in pydantic v2).  The embedding is a first-error `Except` chain in
  the same order with the same skip.  Pydantic collects every error while
  the embedding reports the first one, but the set of accepted inputs and
  the accepted value are identical, which is what the theorems below are
  about.
- The poller's external world is a function `source : Nat → PollAttempt`
  giving, per attempt index, either a raised exception (`err`, caught and
  swallowed by the loop body) or a conversation response; `nowAt i` is the
  wall clock read if attempt `i` performs the terminal write.  The loop
  returns a `PollTrace`: the final record, the number of status queries
  performed and the list of delays slept, in order.
-/

/-- A parsed JSON value (no arrays: none of the modelled payloads has one). -/
inductive Json where
  | null : Json
  | bool : Bool → Json
  | num : Rat → Json
  | str : String → Json
  | obj : List (String × Json) → Json

/-- Key lookup in a JSON object's field list (first match wins, as for a
Python dict built from distinct keys). -/
def slookup {α : Type} (name : String) : List (String × α) → Option α
  | [] => none
  | (k, v) :: rest => if k = name then some v else slookup name rest

/-- `schemas.enums.CallOutcome`. -/
inductive CallOutcome where
  | promised_to_pay | partial_promise | disputed | hardship | wrong_number
  | callback_requested | hung_up | no_answer | voicemail_left | other
deriving DecidableEq, Repr

/-- `schemas.enums.CallState`. -/
inductive CallState where
  | greeting | verification | purpose | negotiation | objection_handling
  | commitment | closing | wrong_number | hardship | callback
deriving DecidableEq, Repr

def parseCallOutcome : String → Option CallOutcome
  | "promised_to_pay" => some .promised_to_pay
  | "partial_promise" => some .partial_promise
  | "disputed" => some .disputed
  | "hardship" => some .hardship
  | "wrong_number" => some .wrong_number
  | "callback_requested" => some .callback_requested
  | "hung_up" => some .hung_up
  | "no_answer" => some .no_answer
  | "voicemail_left" => some .voicemail_left
  | "other" => some .other
  | _ => none

def callOutcomeToString : CallOutcome → String
  | .promised_to_pay => "promised_to_pay"
  | .partial_promise => "partial_promise"
  | .disputed => "disputed"
  | .hardship => "hardship"
  | .wrong_number => "wrong_number"
  | .callback_requested => "callback_requested"
  | .hung_up => "hung_up"
  | .no_answer => "no_answer"
  | .voicemail_left => "voicemail_left"
  | .other => "other"

def parseCallState : String → Option CallState
  | "greeting" => some .greeting
  | "verification" => some .verification
  | "purpose" => some .purpose
  | "negotiation" => some .negotiation
  | "objection_handling" => some .objection_handling
  | "commitment" => some .commitment
  | "closing" => some .closing
  | "wrong_number" => some .wrong_number
  | "hardship" => some .hardship
  | "callback" => some .callback
  | _ => none

def callStateToString : CallState → String
  | .greeting => "greeting"
  | .verification => "verification"
  | .purpose => "purpose"
  | .negotiation => "negotiation"
  | .objection_handling => "objection_handling"
  | .commitment => "commitment"
  | .closing => "closing"
  | .wrong_number => "wrong_number"
  | .hardship => "hardship"
  | .callback => "callback"

/-- `schemas.call.PaymentPromise`: amount is a positive decimal, the date an
ordinal compared against `today`. -/
structure PaymentPromise where
  amount : Rat
  promise_date : Int
deriving DecidableEq, Repr

/-- Validation of the nested `PaymentPromise` model: `amount` has `gt=0`,
and the `promise_date` field validator rejects dates strictly before
`today` ("Promise date cannot be in the past"). -/
def validatePaymentPromise (today : Int) (j : Json) : Except String PaymentPromise :=
  match j with
  | .obj fs =>
    match slookup "amount" fs with
    | some (.num q) =>
      if 0 < q then
        match slookup "promise_date" fs with
        | some (.num d) =>
          if d.den = 1 then
            if d.num < today then .error "Promise date cannot be in the past"
            else .ok ⟨q, d.num⟩
          else .error "promise_date: Input should be a valid date"
        | some _ => .error "promise_date: Input should be a valid date"
        | none => .error "promise_date: Field required"
      else .error "amount: Input should be greater than 0"
    | some _ => .error "amount: Input should be a valid decimal"
    | none => .error "amount: Field required"
  | _ => .error "promise: Input should be a valid dictionary"

/-- `schemas.call.CallExtraction`, the fully validated record. -/
structure CallExtraction where
  confirmed_identity : Bool
  speaking_with_debtor : Bool
  wrong_number : Bool
  outcome : CallOutcome
  promise_made : Bool
  promise : Option PaymentPromise
  hardship_reason : Option String
  dispute_reason : Option String
  callback_requested : Bool
  preferred_callback_time : Option String
  requested_no_calls : Bool
  debtor_sentiment : Int
  call_summary : String
  final_state : CallState
deriving DecidableEq, Repr

/-- A required boolean field (`Field(...)` with no default). -/
def reqBoolField (fs : List (String × Json)) (name : String) : Except String Bool :=
  match slookup name fs with
  | some (.bool b) => .ok b
  | some _ => .error (name ++ ": Input should be a valid boolean")
  | none => .error (name ++ ": Field required")

/-- A non-optional boolean field with a default: missing means the default,
but an explicit null (or other non-boolean) is rejected. -/
def optBoolField (fs : List (String × Json)) (name : String) (dflt : Bool) :
    Except String Bool :=
  match slookup name fs with
  | some (.bool b) => .ok b
  | some _ => .error (name ++ ": Input should be a valid boolean")
  | none => .ok dflt

/-- An `Optional[str]` field with `max_length`: missing or null is `none`. -/
def optStrField (fs : List (String × Json)) (name : String) (maxLen : Nat) :
    Except String (Option String) :=
  match slookup name fs with
  | none => .ok none
  | some .null => .ok none
  | some (.str s) =>
    if s.length ≤ maxLen then .ok (some s)
    else .error (name ++ ": String should have at most " ++ toString maxLen ++ " characters")
  | some _ => .error (name ++ ": Input should be a valid string")

/-- The required `outcome` enum field. -/
def outcomeField (fs : List (String × Json)) : Except String CallOutcome :=
  match slookup "outcome" fs with
  | some (.str s) =>
    match parseCallOutcome s with
    | some o => .ok o
    | none => .error "outcome: Input should be a valid enumeration member"
  | some _ => .error "outcome: Input should be a valid string"
  | none => .error "outcome: Field required"

/-- The required `final_state` enum field. -/
def finalStateField (fs : List (String × Json)) : Except String CallState :=
  match slookup "final_state" fs with
  | some (.str s) =>
    match parseCallState s with
    | some st => .ok st
    | none => .error "final_state: Input should be a valid enumeration member"
  | some _ => .error "final_state: Input should be a valid string"
  | none => .error "final_state: Field required"

/-- A required integer field. -/
def reqIntField (fs : List (String × Json)) (name : String) : Except String Int :=
  match slookup name fs with
  | some (.num q) =>
    if q.den = 1 then .ok q.num
    else .error (name ++ ": Input should be a valid integer")
  | some _ => .error (name ++ ": Input should be a valid integer")
  | none => .error (name ++ ": Field required")

/-- `debtor_sentiment`: required integer with `ge=1, le=5`. -/
def sentimentField (fs : List (String × Json)) : Except String Int := do
  let n ← reqIntField fs "debtor_sentiment"
  if 1 ≤ n then
    if n ≤ 5 then .ok n
    else .error "debtor_sentiment: Input should be less than or equal to 5"
  else .error "debtor_sentiment: Input should be greater than or equal to 1"

/-- A required string field. -/
def reqStrField (fs : List (String × Json)) (name : String) : Except String String :=
  match slookup name fs with
  | some (.str s) => .ok s
  | some _ => .error (name ++ ": Input should be a valid string")
  | none => .error (name ++ ": Field required")

/-- `call_summary`: required string with `min_length=10, max_length=500`. -/
def summaryField (fs : List (String × Json)) : Except String String := do
  let s ← reqStrField fs "call_summary"
  if 10 ≤ s.length then
    if s.length ≤ 500 then .ok s
    else .error "call_summary: String should have at most 500 characters"
  else .error "call_summary: String should have at least 10 characters"

/-- The `Optional[PaymentPromise]` field: missing or null is `none`,
anything else goes through the nested model's validation. -/
def promiseField (today : Int) (fs : List (String × Json)) :
    Except String (Option PaymentPromise) :=
  match slookup "promise" fs with
  | none => .ok none
  | some .null => .ok none
  | some j => (validatePaymentPromise today j).map some

/-- `CallExtraction.validate_promise_consistency`: rejects `promise_made`
true with a null promise and `promise_made` false with a non-null one; it
never coerces either field. -/
def checkPromiseConsistency : Bool → Option PaymentPromise →
    Except String (Option PaymentPromise)
  | true, none => .error "promise must be set when promise_made is True"
  | false, some _ => .error "promise must be None when promise_made is False"
  | _, v => .ok v

/-- The field-validator step for `promise`: pydantic v2 runs a
`field_validator` only when the field was supplied (`present`); when the
key is missing the default `None` is applied and the validator is skipped
(`validate_default` is False). -/
def promiseConsistencyStep (present : Bool) (promise_made : Bool)
    (v : Option PaymentPromise) : Except String (Option PaymentPromise) :=
  if present then checkPromiseConsistency promise_made v else .ok v

/-- Validation of a raw JSON object into a `CallExtraction`, mirroring the
pydantic model field by field in declaration order; the consistency
validator for `promise` runs only when the key was present in the input. -/
def validateCallExtraction (today : Int) (j : Json) : Except String CallExtraction :=
  match j with
  | .obj fs => do
    let confirmed_identity ← reqBoolField fs "confirmed_identity"
    let speaking_with_debtor ← reqBoolField fs "speaking_with_debtor"
    let wrong_number ← optBoolField fs "wrong_number" false
    let outcome ← outcomeField fs
    let promise_made ← optBoolField fs "promise_made" false
    let promise0 ← promiseField today fs
    let promise ← promiseConsistencyStep (slookup "promise" fs).isSome promise_made promise0
    let hardship_reason ← optStrField fs "hardship_reason" 500
    let dispute_reason ← optStrField fs "dispute_reason" 500
    let callback_requested ← optBoolField fs "callback_requested" false
    let preferred_callback_time ← optStrField fs "preferred_callback_time" 100
    let requested_no_calls ← optBoolField fs "requested_no_calls" false
    let debtor_sentiment ← sentimentField fs
    let call_summary ← summaryField fs
    let final_state ← finalStateField fs
    .ok { confirmed_identity, speaking_with_debtor, wrong_number, outcome,
          promise_made, promise, hardship_reason, dispute_reason,
          callback_requested, preferred_callback_time, requested_no_calls,
          debtor_sentiment, call_summary, final_state }
  | _ => .error "Input should be a valid dictionary"

/-- JSON serialization of a nested promise (`model_dump`). -/
def dumpPromise (p : PaymentPromise) : Json :=
  .obj [("amount", .num p.amount), ("promise_date", .num (p.promise_date : Rat))]

/-- JSON serialization of a `CallExtraction` (`model_dump_json`, parsed
back into a `Json` value; `None` serializes as null). -/
def dumpExtraction (x : CallExtraction) : Json :=
  .obj [
    ("confirmed_identity", .bool x.confirmed_identity),
    ("speaking_with_debtor", .bool x.speaking_with_debtor),
    ("wrong_number", .bool x.wrong_number),
    ("outcome", .str (callOutcomeToString x.outcome)),
    ("promise_made", .bool x.promise_made),
    ("promise", match x.promise with | none => .null | some p => dumpPromise p),
    ("hardship_reason", match x.hardship_reason with | none => .null | some s => .str s),
    ("dispute_reason", match x.dispute_reason with | none => .null | some s => .str s),
    ("callback_requested", .bool x.callback_requested),
    ("preferred_callback_time",
      match x.preferred_callback_time with | none => .null | some s => .str s),
    ("requested_no_calls", .bool x.requested_no_calls),
    ("debtor_sentiment", .num (x.debtor_sentiment : Rat)),
    ("call_summary", .str x.call_summary),
    ("final_state", .str (callStateToString x.final_state))
  ]

/-- The invariants a `CallExtraction` value satisfies exactly when it can
come out of validation with clock `today`. -/
def CallExtraction.Valid (today : Int) (x : CallExtraction) : Prop :=
  (x.promise_made = true ↔ x.promise.isSome = true)
  ∧ (match x.promise with
     | some p => 0 < p.amount ∧ today ≤ p.promise_date
     | none => True)
  ∧ (match x.hardship_reason with | some s => s.length ≤ 500 | none => True)
  ∧ (match x.dispute_reason with | some s => s.length ≤ 500 | none => True)
  ∧ (match x.preferred_callback_time with | some s => s.length ≤ 100 | none => True)
  ∧ 1 ≤ x.debtor_sentiment ∧ x.debtor_sentiment ≤ 5
  ∧ 10 ≤ x.call_summary.length ∧ x.call_summary.length ≤ 500

/-- One transcript turn as returned by the conversation status source; both
keys are read with `dict.get` defaults in the source, so both are optional. -/
structure Turn where
  role : Option String
  message : Option String
deriving DecidableEq, Repr

/-- The analysis object attached to a finished conversation; `some` models a
present, non-empty (truthy) dict. -/
structure Analysis where
  transcript_summary : Option String
deriving DecidableEq, Repr

/-- A conversation status response; optional fields model both a missing key
and `None`. -/
structure Conversation where
  status : String
  call_duration_secs : Option Int
  transcript : Option (List Turn)
  analysis : Option Analysis
deriving DecidableEq, Repr

/-- One attempt of the status source: either `get_conversation` raised (the
loop body catches and logs it) or it returned a response. -/
inductive PollAttempt where
  | err : PollAttempt
  | conv : Conversation → PollAttempt
deriving DecidableEq, Repr

/-- The slice of the `Call` row the poller touches.  `status` is the raw
string column; `ended_at` is a wall-clock reading. -/
structure CallRecord where
  status : String
  duration_sec : Option Int
  ended_at : Option Nat
  transcript : Option String
  transcript_json : Option (List Turn)
  ai_summary : Option String
deriving DecidableEq, Repr

/-- The line one turn contributes to the readable transcript: empty or
missing messages contribute nothing; the speaker label is "Agent" exactly
for role "agent" (a missing role reads as "unknown"). -/
def turnLine (t : Turn) : Option String :=
  let role := t.role.getD "unknown"
  let message := t.message.getD ""
  if message = "" then none
  else some ((if role = "agent" then "Agent" else "User") ++ ": " ++ message)

/-- The total line builder used to state what `turnLine` keeps. -/
def turnLabelLine (t : Turn) : String :=
  (if t.role.getD "unknown" = "agent" then "Agent" else "User") ++ ": " ++ t.message.getD ""

/-- `"\n".join(lines)` over the kept lines. -/
def renderTranscript (ts : List Turn) : String :=
  String.intercalate "\n" (ts.filterMap turnLine)

/-- The terminal-status write of the poller (lines 289-330): status becomes
completed for "done" and failed otherwise; a truthy duration also sets
`duration_sec` and `ended_at`; a truthy transcript stores the raw turns and
the derived readable rendering; a truthy analysis copies the summary. -/
def applyTerminal (c : Conversation) (now : Nat) (call : CallRecord) : CallRecord :=
  let call := { call with status := if c.status = "done" then "completed" else "failed" }
  let call :=
    match c.call_duration_secs with
    | some d => if d ≠ 0 then { call with duration_sec := some d, ended_at := some now } else call
    | none => call
  let call :=
    match c.transcript with
    | some ts =>
      if ts ≠ [] then
        { call with transcript_json := some ts, transcript := some (renderTranscript ts) }
      else call
    | none => call
  match c.analysis with
  | some a => { call with ai_summary := a.transcript_summary }
  | none => call

/-- The timeout finalization after the schedule is exhausted (lines
338-343): mark failed only if not already terminal. -/
def finalizeTimeout (call : CallRecord) : CallRecord :=
  if call.status ≠ "completed" ∧ call.status ≠ "failed" then
    { call with status := "failed" }
  else call

/-- What one run of the poller did: the final record (if the row existed),
the number of status queries performed, and the delays slept, in order. -/
structure PollTrace where
  record : Option CallRecord
  queries : Nat
  waits : List Nat
deriving DecidableEq, Repr

/-- The poll loop over the remaining delay schedule, attempt index `i`.
Each iteration sleeps one delay and performs one status query; a raised
error is swallowed and the loop continues; a terminal status performs the
write and stops; anything else continues. -/
def pollGo (source : Nat → PollAttempt) (nowAt : Nat → Nat) :
    List Nat → Nat → Option CallRecord → PollTrace
  | [], _, rec => ⟨rec.map finalizeTimeout, 0, []⟩
  | d :: rest, i, rec =>
    match source i with
    | .err =>
      let t := pollGo source nowAt rest (i + 1) rec
      ⟨t.record, t.queries + 1, d :: t.waits⟩
    | .conv c =>
      if c.status = "done" ∨ c.status = "failed" then
        ⟨rec.map (applyTerminal c (nowAt i)), 1, [d]⟩
      else
        let t := pollGo source nowAt rest (i + 1) rec
        ⟨t.record, t.queries + 1, d :: t.waits⟩

/-- The fixed backoff schedule of `poll_call_completion`. -/
def delays : List Nat := [5, 10, 15, 30, 30, 60, 60, 120]

/-- `poll_call_completion`, as a function of the status source, the clock
and the initial record state. -/
def pollCallCompletion (source : Nat → PollAttempt) (nowAt : Nat → Nat)
    (rec : Option CallRecord) : PollTrace :=
  pollGo source nowAt delays 0 rec

/-- A source attempt that does not end the loop: an error, or a
conversation whose status is neither "done" nor "failed". -/
def PollAttempt.nonTerminal : PollAttempt → Prop
  | .err => True
  | .conv c => ¬(c.status = "done" ∨ c.status = "failed")

/-- Modelled from the spec: the messaging status enumeration `SMSStatus`
(`schemas.enums`) is imported by `twilio_sms/messages.py` but its defining
module is not part of the repository snapshot; members follow the spec's
closed vocabulary queued/sending/sent/delivered/failed/undelivered, in its
"earliest/least-resolved"-first order. -/
inductive SMSStatus where
  | queued | sending | sent | delivered | failed | undelivered
deriving DecidableEq, Repr

/-- The literal dict of `_map_twilio_status`. -/
def twilioStatusMap : List (String × SMSStatus) :=
  [("queued", .queued), ("sending", .sending), ("sent", .sent),
   ("delivered", .delivered), ("failed", .failed), ("undelivered", .undelivered)]

/-- `_map_twilio_status`: dict lookup on the lowercased token with default
`SMSStatus.QUEUED`. -/
def mapTwilioStatus (twilio_status : String) : SMSStatus :=
  (slookup twilio_status.toLower twilioStatusMap).getD .queued

/-! ## Poll-loop unfolding lemmas -/

theorem pollGo_cons_err {source : Nat → PollAttempt} {i : Nat} (nowAt : Nat → Nat)
    (d : Nat) (rest : List Nat) (rec : Option CallRecord) (h : source i = .err) :
    pollGo source nowAt (d :: rest) i rec =
      ⟨(pollGo source nowAt rest (i + 1) rec).record,
       (pollGo source nowAt rest (i + 1) rec).queries + 1,
       d :: (pollGo source nowAt rest (i + 1) rec).waits⟩ := by
  simp only [pollGo, h]

theorem pollGo_cons_terminal {source : Nat → PollAttempt} {i : Nat} (nowAt : Nat → Nat)
    (d : Nat) (rest : List Nat) (rec : Option CallRecord) {c : Conversation}
    (h : source i = .conv c) (ht : c.status = "done" ∨ c.status = "failed") :
    pollGo source nowAt (d :: rest) i rec =
      ⟨rec.map (applyTerminal c (nowAt i)), 1, [d]⟩ := by
  simp only [pollGo, h, if_pos ht]

theorem pollGo_cons_nonTerminal {source : Nat → PollAttempt} {i : Nat} (nowAt : Nat → Nat)
    (d : Nat) (rest : List Nat) (rec : Option CallRecord) {c : Conversation}
    (h : source i = .conv c) (ht : ¬(c.status = "done" ∨ c.status = "failed")) :
    pollGo source nowAt (d :: rest) i rec =
      ⟨(pollGo source nowAt rest (i + 1) rec).record,
       (pollGo source nowAt rest (i + 1) rec).queries + 1,
       d :: (pollGo source nowAt rest (i + 1) rec).waits⟩ := by
  simp only [pollGo, h, if_neg ht]

/-- If every attempt of the schedule is non-terminal, the loop consumes the
whole schedule, performs one query per delay, and applies the timeout
finalization to the record. -/
theorem pollGo_all_nonTerminal (source : Nat → PollAttempt) (nowAt : Nat → Nat) :
    ∀ (ds : List Nat) (i : Nat) (rec : Option CallRecord),
      (∀ j, j < ds.length → (source (i + j)).nonTerminal) →
      pollGo source nowAt ds i rec = ⟨rec.map finalizeTimeout, ds.length, ds⟩ := by
  intro ds
  induction ds with
  | nil => intro i rec _; rfl
  | cons d rest ih =>
    intro i rec h
    have h0 : (source i).nonTerminal := by simpa using h 0 (Nat.succ_pos _)
    have hrest : ∀ j, j < rest.length → (source (i + 1 + j)).nonTerminal := by
      intro j hj
      have := h (j + 1) (by simpa using Nat.succ_lt_succ hj)
      simpa [Nat.add_assoc, Nat.add_comm 1 j] using this
    cases hs : source i with
    | err =>
      rw [pollGo_cons_err nowAt d rest rec hs, ih (i + 1) rec hrest]
      simp
    | conv c =>
      have ht : ¬(c.status = "done" ∨ c.status = "failed") := by
        rw [hs] at h0; exact h0
      rw [pollGo_cons_nonTerminal nowAt d rest rec hs ht, ih (i + 1) rec hrest]
      simp

/-- If the first terminal answer arrives at relative attempt `k` (0-based),
the loop performs exactly `k + 1` queries, sleeps the first `k + 1` delays
and applies the terminal write from that answer. -/
theorem pollGo_first_terminal (source : Nat → PollAttempt) (nowAt : Nat → Nat) :
    ∀ (ds : List Nat) (k i : Nat) (rec : Option CallRecord) (c : Conversation),
      k < ds.length →
      (∀ j, j < k → (source (i + j)).nonTerminal) →
      source (i + k) = .conv c →
      (c.status = "done" ∨ c.status = "failed") →
      pollGo source nowAt ds i rec =
        ⟨rec.map (applyTerminal c (nowAt (i + k))), k + 1, ds.take (k + 1)⟩ := by
  intro ds
  induction ds with
  | nil => intro k i rec c hk _ _ _; exact absurd hk (by simp)
  | cons d rest ih =>
    intro k i rec c hk hpre hterm ht
    cases k with
    | zero =>
      have hs : source i = .conv c := by simpa using hterm
      rw [pollGo_cons_terminal nowAt d rest rec hs ht]
      simp
    | succ k' =>
      have h0 : (source i).nonTerminal := by simpa using hpre 0 (Nat.succ_pos _)
      have hpre' : ∀ j, j < k' → (source (i + 1 + j)).nonTerminal := by
        intro j hj
        have := hpre (j + 1) (Nat.succ_lt_succ hj)
        simpa [Nat.add_assoc, Nat.add_comm 1 j] using this
      have hterm' : source (i + 1 + k') = .conv c := by
        simpa [Nat.add_assoc, Nat.add_comm 1 k'] using hterm
      have hk' : k' < rest.length := by simpa using Nat.lt_of_succ_lt_succ hk
      cases hs : source i with
      | err =>
        rw [pollGo_cons_err nowAt d rest rec hs, ih k' (i + 1) rec c hk' hpre' hterm' ht]
        simp [Nat.add_assoc, Nat.add_comm 1 k']
      | conv c0 =>
        have ht0 : ¬(c0.status = "done" ∨ c0.status = "failed") := by
          rw [hs] at h0; exact h0
        rw [pollGo_cons_nonTerminal nowAt d rest rec hs ht0,
            ih k' (i + 1) rec c hk' hpre' hterm' ht]
        simp [Nat.add_assoc, Nat.add_comm 1 k']

/-! ## Terminal-write helper lemmas -/

theorem applyTerminal_status (c : Conversation) (now : Nat) (call : CallRecord) :
    (applyTerminal c now call).status =
      (if c.status = "done" then "completed" else "failed") := by
  obtain ⟨st, dur, tr, an⟩ := c
  rcases dur with _ | d <;> rcases tr with _ | ts <;> rcases an with _ | a <;>
    simp only [applyTerminal] <;> split_ifs <;> rfl

theorem applyTerminal_transcript_some {c : Conversation} (now : Nat) (call : CallRecord)
    {ts : List Turn} (hts : c.transcript = some ts) (hne : ts ≠ []) :
    (applyTerminal c now call).transcript = some (renderTranscript ts)
    ∧ (applyTerminal c now call).transcript_json = some ts := by
  obtain ⟨st, dur, tr, an⟩ := c
  rcases tr with _ | ts'
  · exact Option.noConfusion hts
  · obtain rfl : ts' = ts := Option.some.inj hts
    rcases dur with _ | d <;> rcases an with _ | a <;>
      simp only [applyTerminal] <;> split_ifs <;> exact ⟨rfl, rfl⟩

theorem filterMap_turnLine_all_nonempty (ts : List Turn)
    (h : ∀ t ∈ ts, ¬t.message.getD "" = "") :
    ts.filterMap turnLine = ts.map turnLabelLine := by
  induction ts with
  | nil => rfl
  | cons t rest ih =>
    have hm := h t (List.mem_cons_self t rest)
    simp only [List.filterMap_cons, List.map_cons, turnLine, if_neg hm, turnLabelLine,
      ih (fun u hu => h u (List.mem_cons_of_mem t hu))]

theorem filterMap_turnLine_eq_filter (ts : List Turn) :
    ts.filterMap turnLine =
      (ts.filter (fun t => t.message.getD "" != "")).map turnLabelLine := by
  induction ts with
  | nil => rfl
  | cons t rest ih =>
    by_cases hm : t.message.getD "" = ""
    · simp [List.filterMap_cons, List.filter_cons, turnLine, hm, ih]
    · simp [List.filterMap_cons, List.filter_cons, turnLine, turnLabelLine, hm, ih]

theorem turnLine_ne_empty {t : Turn} {l : String} (h : turnLine t = some l) : l ≠ "" := by
  intro hl
  rw [turnLine] at h
  by_cases hm : t.message.getD "" = ""
  · rw [if_pos hm] at h; exact Option.noConfusion h
  · rw [if_neg hm] at h
    have h2 := congrArg String.length (Option.some.inj h)
    rw [hl] at h2
    have hcolon : (": ").length = 2 := rfl
    have hnil : ("" : String).length = 0 := rfl
    rw [String.length_append, String.length_append, hcolon, hnil] at h2
    omega

/-! ## Concrete fixtures for the poller claims -/

/-- An in-flight conversation response (status neither "done" nor "failed"). -/
def convInFlight : Conversation :=
  { status := "in-progress", call_duration_secs := none, transcript := none, analysis := none }

/-- A finished conversation with the two-turn Hello/Hi transcript. -/
def convDone : Conversation :=
  { status := "done", call_duration_secs := some 42,
    transcript := some [⟨some "agent", some "Hello"⟩, ⟨some "user", some "Hi"⟩],
    analysis := none }

/-- A finished conversation that reports a duration of zero seconds. -/
def convDur0 : Conversation :=
  { status := "done", call_duration_secs := some 0, transcript := none, analysis := none }

/-- An external failure response. -/
def convFailed : Conversation :=
  { status := "failed", call_duration_secs := none, transcript := none, analysis := none }

/-- The call row as the poller first sees it. -/
def recInFlight : CallRecord :=
  { status := "in_progress", duration_sec := none, ended_at := none,
    transcript := none, transcript_json := none, ai_summary := none }

/-- A status source that never reaches a terminal state. -/
def srcInFlight : Nat → PollAttempt := fun _ => .conv convInFlight

/-- A status source that answers "done" on the third attempt. -/
def srcDoneAt3 : Nat → PollAttempt :=
  fun i => if i < 2 then .conv convInFlight else .conv convDone

/-- A status source that raises on the first two attempts and answers
"failed" on the third. -/
def srcErrThenFailed : Nat → PollAttempt :=
  fun i => if i < 2 then .err else .conv convFailed

/-- A status source that immediately answers "done" with duration 0. -/
def srcDur0 : Nat → PollAttempt := fun _ => .conv convDur0

/-! ## Poller claims -/

/-- C3: against a status source that never returns "done" or "failed", the
poller sleeps the delays 5, 10, 15, 30, 30, 60, 60, 120 in that order,
performs exactly 8 status queries (one per delay, never a 9th) and then
applies the timeout finalization, which sets the record's status to failed
only if it is not already completed or failed. -/
theorem c3_schedule_exhaustion (source : Nat → PollAttempt) (nowAt : Nat → Nat)
    (call : CallRecord) (h : ∀ j, j < 8 → (source j).nonTerminal) :
    pollCallCompletion source nowAt (some call) =
      ⟨some (finalizeTimeout call), 8, [5, 10, 15, 30, 30, 60, 60, 120]⟩
    ∧ (call.status ≠ "completed" → call.status ≠ "failed" →
        finalizeTimeout call = { call with status := "failed" })
    ∧ (call.status = "completed" ∨ call.status = "failed" →
        finalizeTimeout call = call) := by
  refine ⟨?_, ?_, ?_⟩
  · have h8 : ∀ j, j < delays.length → (source (0 + j)).nonTerminal := by
      intro j hj
      exact (by simpa using h j (by simpa [delays] using hj))
    simpa [delays] using pollGo_all_nonTerminal source nowAt delays 0 (some call) h8
  · intro h1 h2; simp [finalizeTimeout, h1, h2]
  · intro h1; rcases h1 with h1 | h1 <;> simp [finalizeTimeout, h1]

/-- C3 witness: the never-terminal source drives an in-flight record to
status failed after 8 queries and the full delay schedule. -/
theorem c3_witness :
    pollCallCompletion srcInFlight (fun _ => 0) (some recInFlight) =
      ⟨some { status := "failed", duration_sec := none, ended_at := none,
              transcript := none, transcript_json := none, ai_summary := none },
       8, [5, 10, 15, 30, 30, 60, 60, 120]⟩ :=
  (c3_schedule_exhaustion srcInFlight (fun _ => 0) recInFlight
    (by intro j _; exact (by simp [srcInFlight, convInFlight, PollAttempt.nonTerminal]))).1

/-- C4: if the source answers "done" on attempt `n` after in-flight answers,
the poller stops after exactly `n` queries, marks the record completed, and
stores the readable transcript; on turns whose messages are all non-empty
the rendering joins one "{Speaker}: {message}" line per turn with newlines,
with speaker "Agent" exactly for role "agent" and "User" otherwise; on the
Hello/Hi turns it equals "Agent: Hello\nUser: Hi". -/
theorem c4_done_on_attempt_n (source : Nat → PollAttempt) (nowAt : Nat → Nat)
    (call : CallRecord) (n : Nat) (c : Conversation)
    (hn1 : 1 ≤ n) (hn8 : n ≤ 8)
    (hpre : ∀ j, j < n - 1 → (source j).nonTerminal)
    (hterm : source (n - 1) = .conv c)
    (hdone : c.status = "done") :
    (pollCallCompletion source nowAt (some call)).queries = n
    ∧ (pollCallCompletion source nowAt (some call)).record =
        some (applyTerminal c (nowAt (n - 1)) call)
    ∧ (applyTerminal c (nowAt (n - 1)) call).status = "completed"
    ∧ (∀ ts, c.transcript = some ts → ts ≠ [] →
        (applyTerminal c (nowAt (n - 1)) call).transcript = some (renderTranscript ts))
    ∧ (∀ ts : List Turn, (∀ t ∈ ts, ¬t.message.getD "" = "") →
        renderTranscript ts = String.intercalate "\n" (ts.map turnLabelLine))
    ∧ turnLabelLine ⟨some "agent", some "Hello"⟩ = "Agent: Hello"
    ∧ turnLabelLine ⟨some "user", some "Hi"⟩ = "User: Hi"
    ∧ renderTranscript [⟨some "agent", some "Hello"⟩, ⟨some "user", some "Hi"⟩]
        = "Agent: Hello\nUser: Hi" := by
  have hk : n - 1 < delays.length := by simp [delays]; omega
  have hpre' : ∀ j, j < n - 1 → (source (0 + j)).nonTerminal := by
    intro j hj; simpa using hpre j hj
  have hterm' : source (0 + (n - 1)) = .conv c := by simpa using hterm
  have h := pollGo_first_terminal source nowAt delays (n - 1) 0 (some call) c
    hk hpre' hterm' (Or.inl hdone)
  refine ⟨?_, ?_, ?_, ?_, ?_, rfl, rfl, rfl⟩
  · simp [pollCallCompletion, h]; omega
  · simp [pollCallCompletion, h]
  · rw [applyTerminal_status]; simp [hdone]
  · intro ts hts hne; exact (applyTerminal_transcript_some _ _ hts hne).1
  · intro ts hts; rw [renderTranscript, filterMap_turnLine_all_nonempty ts hts]

/-- C4 witness: "done" with the Hello/Hi transcript on the third attempt
gives exactly 3 queries and the expected completed record. -/
theorem c4_witness :
    (pollCallCompletion srcDoneAt3 (fun i => 900 + i) (some recInFlight)).queries = 3
    ∧ (pollCallCompletion srcDoneAt3 (fun i => 900 + i) (some recInFlight)).record =
        some { status := "completed", duration_sec := some 42, ended_at := some 902,
               transcript := some "Agent: Hello\nUser: Hi",
               transcript_json := some [⟨some "agent", some "Hello"⟩, ⟨some "user", some "Hi"⟩],
               ai_summary := none } := by
  have h := c4_done_on_attempt_n srcDoneAt3 (fun i => 900 + i) recInFlight 3 convDone
    (by omega) (by omega)
    (by intro j hj
        have : j < 2 := by omega
        simp [srcDoneAt3, this, convInFlight, PollAttempt.nonTerminal])
    (by simp [srcDoneAt3]) rfl
  exact ⟨h.1, h.2.1⟩

/-- C5: an error raised by the status read is swallowed and the loop simply
moves to the next scheduled attempt with the record untouched; in the
concrete scenario with errors on attempts 1 and 2 and "failed" on attempt
3, exactly 3 queries happen and the record ends failed. -/
theorem c5_errors_swallowed (source : Nat → PollAttempt) (nowAt : Nat → Nat)
    (call : CallRecord) (c : Conversation)
    (h0 : source 0 = .err) (h1 : source 1 = .err)
    (h2 : source 2 = .conv c) (hc : c.status = "failed") :
    ((pollCallCompletion source nowAt (some call)).queries = 3
    ∧ (pollCallCompletion source nowAt (some call)).record =
        some (applyTerminal c (nowAt 2) call)
    ∧ (applyTerminal c (nowAt 2) call).status = "failed")
    ∧ (∀ (src : Nat → PollAttempt) (clock : Nat → Nat) (d : Nat) (rest : List Nat)
        (i : Nat) (r : Option CallRecord), src i = .err →
        pollGo src clock (d :: rest) i r =
          ⟨(pollGo src clock rest (i + 1) r).record,
           (pollGo src clock rest (i + 1) r).queries + 1,
           d :: (pollGo src clock rest (i + 1) r).waits⟩) := by
  refine ⟨?_, fun src clock d rest i r he => pollGo_cons_err clock d rest r he⟩
  have hpre : ∀ j, j < 2 → (source (0 + j)).nonTerminal := by
    intro j hj
    interval_cases j
    · simp [h0, PollAttempt.nonTerminal]
    · simp [h1, PollAttempt.nonTerminal]
  have hterm : source (0 + 2) = .conv c := by simpa using h2
  have h := pollGo_first_terminal source nowAt delays 2 0 (some call) c
    (by simp [delays]) hpre hterm (Or.inr hc)
  refine ⟨?_, ?_, ?_⟩
  · simp [pollCallCompletion, h]
  · simp [pollCallCompletion, h]
  · rw [applyTerminal_status, if_neg (by simp [hc])]

/-- C5 witness: the concrete err/err/"failed" source ends with a failed
record after exactly 3 queries. -/
theorem c5_witness :
    (pollCallCompletion srcErrThenFailed (fun _ => 7) (some recInFlight)).queries = 3
    ∧ (pollCallCompletion srcErrThenFailed (fun _ => 7) (some recInFlight)).record =
        some { status := "failed", duration_sec := none, ended_at := none,
               transcript := none, transcript_json := none, ai_summary := none } := by
  have h := c5_errors_swallowed srcErrThenFailed (fun _ => 7) recInFlight convFailed
    (by simp [srcErrThenFailed]) (by simp [srcErrThenFailed]) (by simp [srcErrThenFailed]) rfl
  exact ⟨h.1.1, h.1.2.1⟩

/-- C9 counterexample: the response reports status "done" with a present
duration of 0, yet the poller leaves both `duration_sec` and `ended_at`
unchanged (the source tests `if duration:`, so a present 0 is dropped),
contradicting the claim that every present duration, including 0, is
stored along with `ended_at`. -/
theorem c9_counterexample :
    convDur0.status = "done"
    ∧ convDur0.call_duration_secs = some 0
    ∧ pollCallCompletion srcDur0 (fun _ => 100) (some recInFlight) =
        ⟨some { status := "completed", duration_sec := none, ended_at := none,
                transcript := none, transcript_json := none, ai_summary := none },
         1, [5]⟩
    ∧ (applyTerminal convDur0 100 recInFlight).duration_sec ≠ some 0
    ∧ (applyTerminal convDur0 100 recInFlight).ended_at ≠ some 100 := by
  refine ⟨rfl, rfl, rfl, ?_, ?_⟩ <;> decide

/-- C9 amended: on a terminal-success response the poller stores a present
duration and stamps `ended_at` with the current time only when the duration
is non-zero (truthy); an absent or zero duration leaves both fields
unchanged. -/
theorem c9_duration_amended (c : Conversation) (now : Nat) (call : CallRecord)
    (hdone : c.status = "done") :
    (∀ d : Int, c.call_duration_secs = some d → d ≠ 0 →
        (applyTerminal c now call).duration_sec = some d
        ∧ (applyTerminal c now call).ended_at = some now)
    ∧ (c.call_duration_secs = none ∨ c.call_duration_secs = some 0 →
        (applyTerminal c now call).duration_sec = call.duration_sec
        ∧ (applyTerminal c now call).ended_at = call.ended_at) := by
  obtain ⟨st, dur, tr, an⟩ := c
  constructor
  · intro d hd hd0
    obtain rfl : dur = some d := hd
    rcases tr with _ | ts <;> rcases an with _ | a <;>
      simp only [applyTerminal] <;> split_ifs <;> exact ⟨rfl, rfl⟩
  · intro hd
    have : dur = none ∨ dur = some 0 := hd
    rcases this with rfl | rfl <;>
      rcases tr with _ | ts <;> rcases an with _ | a <;>
        simp only [applyTerminal] <;> (try split_ifs) <;>
          first | exact ⟨rfl, rfl⟩ | simp_all

/-- C9 witness (amended): a "done" response with duration 42 stores it and
stamps `ended_at`, and one with duration 0 leaves both fields unchanged. -/
theorem c9_witness :
    ((applyTerminal convDone 902 recInFlight).duration_sec = some 42
    ∧ (applyTerminal convDone 902 recInFlight).ended_at = some 902)
    ∧ ((applyTerminal convDur0 100 recInFlight).duration_sec = none
    ∧ (applyTerminal convDur0 100 recInFlight).ended_at = none) :=
  ⟨(c9_duration_amended convDone 902 recInFlight rfl).1 42 rfl (by decide),
   (c9_duration_amended convDur0 100 recInFlight rfl).2 (Or.inr rfl)⟩

/-- C10: on a terminal write with a present non-empty transcript, the raw
turn list is stored unmodified in `transcript_json`, while the readable
transcript keeps exactly one "{Speaker}: {message}" line per turn with a
non-empty message, in order, and no line is blank. -/
theorem c10_empty_messages_omitted (c : Conversation) (now : Nat) (call : CallRecord)
    (ts : List Turn) (hts : c.transcript = some ts) (hne : ts ≠ []) :
    (applyTerminal c now call).transcript_json = some ts
    ∧ (applyTerminal c now call).transcript = some (renderTranscript ts)
    ∧ renderTranscript ts =
        String.intercalate "\n"
          ((ts.filter (fun t => t.message.getD "" != "")).map turnLabelLine)
    ∧ (∀ l ∈ ts.filterMap turnLine, l ≠ "") := by
  refine ⟨(applyTerminal_transcript_some now call hts hne).2,
          (applyTerminal_transcript_some now call hts hne).1, ?_, ?_⟩
  · rw [renderTranscript, filterMap_turnLine_eq_filter]
  · intro l hl
    obtain ⟨t, _, hline⟩ := List.mem_filterMap.mp hl
    exact turnLine_ne_empty hline

/-- C10 witness: a transcript with a missing message, an empty message and
two real messages renders to just the two real lines, while the raw four
turns are stored untouched. -/
theorem c10_witness :
    (applyTerminal
        { status := "done", call_duration_secs := none,
          transcript := some [⟨some "agent", none⟩, ⟨some "user", some ""⟩,
                              ⟨some "agent", some "Hello"⟩, ⟨none, some "Hi"⟩],
          analysis := none } 0 recInFlight).transcript_json =
      some [⟨some "agent", none⟩, ⟨some "user", some ""⟩,
            ⟨some "agent", some "Hello"⟩, ⟨none, some "Hi"⟩]
    ∧ (applyTerminal
        { status := "done", call_duration_secs := none,
          transcript := some [⟨some "agent", none⟩, ⟨some "user", some ""⟩,
                              ⟨some "agent", some "Hello"⟩, ⟨none, some "Hi"⟩],
          analysis := none } 0 recInFlight).transcript =
      some "Agent: Hello\nUser: Hi" := by
  have h := c10_empty_messages_omitted
    { status := "done", call_duration_secs := none,
      transcript := some [⟨some "agent", none⟩, ⟨some "user", some ""⟩,
                          ⟨some "agent", some "Hello"⟩, ⟨none, some "Hi"⟩],
      analysis := none } 0 recInFlight
    [⟨some "agent", none⟩, ⟨some "user", some ""⟩,
     ⟨some "agent", some "Hello"⟩, ⟨none, some "Hi"⟩]
    rfl (by simp)
  exact ⟨h.1, h.2.1⟩

/-- C6: an external status token whose lowercase form is outside the mapped
vocabulary falls back to `SMSStatus.queued`, the earliest, non-terminal
member of the enumeration; and the poll loop treats any conversation status
other than "done" and "failed" as in-flight, continuing without touching
the record. -/
theorem c6_unknown_nonterminal (s : String)
    (h : s.toLower ∉ ["queued", "sending", "sent", "delivered", "failed", "undelivered"]) :
    (mapTwilioStatus s = .queued
      ∧ mapTwilioStatus s ≠ .delivered ∧ mapTwilioStatus s ≠ .failed)
    ∧ (∀ (source : Nat → PollAttempt) (nowAt : Nat → Nat) (d : Nat) (rest : List Nat)
        (i : Nat) (r : Option CallRecord) (c : Conversation),
        source i = .conv c → c.status ≠ "done" → c.status ≠ "failed" →
        pollGo source nowAt (d :: rest) i r =
          ⟨(pollGo source nowAt rest (i + 1) r).record,
           (pollGo source nowAt rest (i + 1) r).queries + 1,
           d :: (pollGo source nowAt rest (i + 1) r).waits⟩) := by
  constructor
  · have hq : mapTwilioStatus s = .queued := by
      simp only [List.mem_cons, List.not_mem_nil, or_false, not_or] at h
      obtain ⟨n1, n2, n3, n4, n5, n6⟩ := h
      simp [mapTwilioStatus, twilioStatusMap, slookup, Ne.symm n1, Ne.symm n2,
        Ne.symm n3, Ne.symm n4, Ne.symm n5, Ne.symm n6]
    exact ⟨hq, by rw [hq]; decide, by rw [hq]; decide⟩
  · intro source nowAt d rest i r c hs hd hf
    exact pollGo_cons_nonTerminal nowAt d rest r hs (by simp [hd, hf])

/-! ## Validator helper lemmas -/

theorem exceptBind_ok {α β : Type} {e : Except String α} {f : α → Except String β} {b : β}
    (h : (e >>= f) = .ok b) : ∃ a, e = .ok a ∧ f a = .ok b := by
  cases e with
  | error s => exact absurd h (by simp [Bind.bind, Except.bind])
  | ok a => exact ⟨a, rfl, by simpa [Bind.bind, Except.bind] using h⟩

theorem exceptMap_ok {α β : Type} {e : Except String α} {f : α → β} {b : β}
    (h : e.map f = .ok b) : ∃ a, e = .ok a ∧ f a = b := by
  cases e with
  | error s => exact absurd h (by simp [Except.map])
  | ok a => exact ⟨a, rfl, by simpa [Except.map] using h⟩

@[simp] theorem parseCallOutcome_roundtrip (o : CallOutcome) :
    parseCallOutcome (callOutcomeToString o) = some o := by cases o <;> rfl

@[simp] theorem parseCallState_roundtrip (st : CallState) :
    parseCallState (callStateToString st) = some st := by cases st <;> rfl

theorem optBoolField_ok {fs : List (String × Json)} {name : String} {dflt b : Bool}
    (h : optBoolField fs name dflt = .ok b) :
    slookup name fs = some (.bool b) ∨ (slookup name fs = none ∧ b = dflt) := by
  unfold optBoolField at h
  split at h <;> try exact Except.noConfusion h
  · rename_i heq
    exact Or.inl (by rw [heq, Option.some.injEq, Json.bool.injEq]; exact Except.ok.inj h)
  · rename_i heq
    exact Or.inr ⟨heq, (Except.ok.inj h).symm⟩

theorem reqIntField_ok {fs : List (String × Json)} {name : String} {n : Int}
    (h : reqIntField fs name = .ok n) :
    ∃ q : Rat, slookup name fs = some (.num q) ∧ q.den = 1 ∧ q.num = n := by
  unfold reqIntField at h
  split at h <;> try exact Except.noConfusion h
  rename_i q heq
  split at h <;> try exact Except.noConfusion h
  rename_i hden
  exact ⟨q, heq, hden, Except.ok.inj h⟩

theorem sentimentField_ok {fs : List (String × Json)} {n : Int}
    (h : sentimentField fs = .ok n) :
    1 ≤ n ∧ n ≤ 5
    ∧ ∃ q : Rat, slookup "debtor_sentiment" fs = some (.num q) ∧ q.den = 1 ∧ q.num = n := by
  unfold sentimentField at h
  obtain ⟨m, hm, h⟩ := exceptBind_ok h
  by_cases h1 : 1 ≤ m
  · rw [if_pos h1] at h
    by_cases h5 : m ≤ 5
    · rw [if_pos h5] at h
      obtain rfl : m = n := Except.ok.inj h
      exact ⟨h1, h5, reqIntField_ok hm⟩
    · rw [if_neg h5] at h; exact Except.noConfusion h
  · rw [if_neg h1] at h; exact Except.noConfusion h

theorem reqStrField_ok {fs : List (String × Json)} {name s : String}
    (h : reqStrField fs name = .ok s) : slookup name fs = some (.str s) := by
  unfold reqStrField at h
  split at h <;> try exact Except.noConfusion h
  rename_i s' heq
  rw [heq, Option.some.injEq, Json.str.injEq]
  exact Except.ok.inj h

theorem summaryField_ok {fs : List (String × Json)} {s : String}
    (h : summaryField fs = .ok s) :
    10 ≤ s.length ∧ s.length ≤ 500 ∧ slookup "call_summary" fs = some (.str s) := by
  unfold summaryField at h
  obtain ⟨s', hs', h⟩ := exceptBind_ok h
  by_cases hl : 10 ≤ s'.length
  · rw [if_pos hl] at h
    by_cases hu : s'.length ≤ 500
    · rw [if_pos hu] at h
      obtain rfl : s' = s := Except.ok.inj h
      exact ⟨hl, hu, reqStrField_ok hs'⟩
    · rw [if_neg hu] at h; exact Except.noConfusion h
  · rw [if_neg hl] at h; exact Except.noConfusion h

theorem checkPromiseConsistency_ok {pm : Bool} {p0 p : Option PaymentPromise}
    (h : checkPromiseConsistency pm p0 = .ok p) :
    p = p0 ∧ (pm = true ↔ p0.isSome = true) := by
  cases pm <;> cases p0
  · exact ⟨(Except.ok.inj h).symm, by simp⟩
  · exact Except.noConfusion h
  · exact Except.noConfusion h
  · exact ⟨(Except.ok.inj h).symm, by simp⟩

theorem validatePaymentPromise_ok {today : Int} {j : Json} {p : PaymentPromise}
    (h : validatePaymentPromise today j = .ok p) :
    0 < p.amount ∧ today ≤ p.promise_date := by
  unfold validatePaymentPromise at h
  split at h <;> try exact Except.noConfusion h
  split at h <;> try exact Except.noConfusion h
  split at h <;> try exact Except.noConfusion h
  split at h <;> try exact Except.noConfusion h
  split at h <;> try exact Except.noConfusion h
  split at h <;> try exact Except.noConfusion h
  obtain rfl : (⟨_, _⟩ : PaymentPromise) = p := Except.ok.inj h
  exact ⟨by assumption, not_lt.mp (by assumption)⟩

theorem promiseField_ok {today : Int} {fs : List (String × Json)}
    {p0 : Option PaymentPromise} (h : promiseField today fs = .ok p0) :
    (p0 = none ∧ (slookup "promise" fs = none ∨ slookup "promise" fs = some .null))
    ∨ (∃ j q, slookup "promise" fs = some j ∧ j ≠ .null
        ∧ validatePaymentPromise today j = .ok q ∧ p0 = some q) := by
  unfold promiseField at h
  split at h
  · exact Or.inl ⟨(Except.ok.inj h).symm, Or.inl (by assumption)⟩
  · rename_i heq
    exact Or.inl ⟨(Except.ok.inj h).symm, Or.inr heq⟩
  · rename_i j hne heq
    obtain ⟨q, hq, rfl⟩ := exceptMap_ok h
    exact Or.inr ⟨j, q, heq, hne, hq, rfl⟩

/-- Inversion of the validation chain: success pins every per-field
validation result to the corresponding output field. -/
theorem validateCallExtraction_ok_inv {today : Int} {fs : List (String × Json)}
    {x : CallExtraction} (h : validateCallExtraction today (.obj fs) = .ok x) :
    reqBoolField fs "confirmed_identity" = .ok x.confirmed_identity
    ∧ reqBoolField fs "speaking_with_debtor" = .ok x.speaking_with_debtor
    ∧ optBoolField fs "wrong_number" false = .ok x.wrong_number
    ∧ outcomeField fs = .ok x.outcome
    ∧ optBoolField fs "promise_made" false = .ok x.promise_made
    ∧ (∃ p0, promiseField today fs = .ok p0
        ∧ promiseConsistencyStep (slookup "promise" fs).isSome x.promise_made p0
            = .ok x.promise)
    ∧ optStrField fs "hardship_reason" 500 = .ok x.hardship_reason
    ∧ optStrField fs "dispute_reason" 500 = .ok x.dispute_reason
    ∧ optBoolField fs "callback_requested" false = .ok x.callback_requested
    ∧ optStrField fs "preferred_callback_time" 100 = .ok x.preferred_callback_time
    ∧ optBoolField fs "requested_no_calls" false = .ok x.requested_no_calls
    ∧ sentimentField fs = .ok x.debtor_sentiment
    ∧ summaryField fs = .ok x.call_summary
    ∧ finalStateField fs = .ok x.final_state := by
  simp only [validateCallExtraction] at h
  obtain ⟨a1, h1, h⟩ := exceptBind_ok h
  obtain ⟨a2, h2, h⟩ := exceptBind_ok h
  obtain ⟨a3, h3, h⟩ := exceptBind_ok h
  obtain ⟨a4, h4, h⟩ := exceptBind_ok h
  obtain ⟨a5, h5, h⟩ := exceptBind_ok h
  obtain ⟨a6, h6, h⟩ := exceptBind_ok h
  obtain ⟨a7, h7, h⟩ := exceptBind_ok h
  obtain ⟨a8, h8, h⟩ := exceptBind_ok h
  obtain ⟨a9, h9, h⟩ := exceptBind_ok h
  obtain ⟨a10, h10, h⟩ := exceptBind_ok h
  obtain ⟨a11, h11, h⟩ := exceptBind_ok h
  obtain ⟨a12, h12, h⟩ := exceptBind_ok h
  obtain ⟨a13, h13, h⟩ := exceptBind_ok h
  obtain ⟨a14, h14, h⟩ := exceptBind_ok h
  obtain ⟨a15, h15, h⟩ := exceptBind_ok h
  obtain rfl : x = _ := (Except.ok.inj h).symm
  exact ⟨h1, h2, h3, h4, h5, ⟨a6, h6, h7⟩, h8, h9, h10, h11, h12, h13, h14, h15⟩

/-- C6 witness: the unrecognized token "accepted" maps to queued, and an
"in-progress" answer makes the loop continue to the next attempt. -/
theorem c6_witness :
    mapTwilioStatus "Accepted" = .queued
    ∧ pollGo srcInFlight (fun _ => 0) [5, 10] 0 (some recInFlight) =
        ⟨(pollGo srcInFlight (fun _ => 0) [10] 1 (some recInFlight)).record,
         (pollGo srcInFlight (fun _ => 0) [10] 1 (some recInFlight)).queries + 1,
         5 :: (pollGo srcInFlight (fun _ => 0) [10] 1 (some recInFlight)).waits⟩ := by
  have h := c6_unknown_nonterminal "Accepted"
    (by rw [String.toLower, String.map_eq]; decide)
  exact ⟨h.1.1,
    h.2 srcInFlight (fun _ => 0) 5 [10] 0 (some recInFlight) convInFlight rfl
      (by decide) (by decide)⟩

/-! ## Validator fixtures -/

/-- A fully valid extraction value: promise made, amount 10 due on day 7. -/
def extractionEx : CallExtraction :=
  { confirmed_identity := true, speaking_with_debtor := true, wrong_number := false,
    outcome := .promised_to_pay, promise_made := true, promise := some ⟨10, 7⟩,
    hardship_reason := none, dispute_reason := none, callback_requested := false,
    preferred_callback_time := none, requested_no_calls := false,
    debtor_sentiment := 3, call_summary := "abcdefghij", final_state := .closing }

/-- A 9-character summary (one below the minimum). -/
def sum9 : String := "123456789"

/-- A 10-character summary (the minimum accepted). -/
def sum10 : String := "1234567890"

/-- A 500-character summary (the maximum accepted). -/
def sum500 : String := ⟨List.replicate 500 'a'⟩

/-- A 501-character summary (one above the maximum). -/
def sum501 : String := ⟨List.replicate 501 'a'⟩

/-- An otherwise-valid input with the given sentiment and summary. -/
def exFs (n : Int) (s : String) : List (String × Json) :=
  [("confirmed_identity", .bool true),
   ("speaking_with_debtor", .bool true),
   ("outcome", .str "other"),
   ("debtor_sentiment", .num (n : Rat)),
   ("call_summary", .str s),
   ("final_state", .str "closing")]

/-- The validated value of `exFs n s` (defaults applied to omitted fields). -/
def exX (n : Int) (s : String) : CallExtraction :=
  { confirmed_identity := true, speaking_with_debtor := true, wrong_number := false,
    outcome := .other, promise_made := false, promise := none,
    hardship_reason := none, dispute_reason := none, callback_requested := false,
    preferred_callback_time := none, requested_no_calls := false,
    debtor_sentiment := n, call_summary := s, final_state := .closing }

theorem sum9_length : sum9.length = 9 := by decide

theorem sum10_length : sum10.length = 10 := by decide

theorem sum500_length : sum500.length = 500 := by
  show (List.replicate 500 'a').length = 500
  exact List.length_replicate ..

theorem sum501_length : sum501.length = 501 := by
  show (List.replicate 501 'a').length = 501
  exact List.length_replicate ..

/-- `exFs n s` validates whenever sentiment and summary are in range. -/
theorem exFs_accepted (today n : Int) (s : String)
    (h1 : 1 ≤ n) (h5 : n ≤ 5) (hl : 10 ≤ s.length) (hu : s.length ≤ 500) :
    validateCallExtraction today (.obj (exFs n s)) = .ok (exX n s) := by
  simp [validateCallExtraction, exFs, exX, reqBoolField, optBoolField, optStrField,
    outcomeField, finalStateField, reqIntField, sentimentField, reqStrField,
    summaryField, promiseField, promiseConsistencyStep, checkPromiseConsistency,
    slookup, Bind.bind, Except.bind, h1, h5, hl, hu]
  rfl

/-- Inversion of a successful `validatePaymentPromise` run on an object,
recovering the field lookups it consumed. -/
theorem validatePaymentPromise_ok_lookups {today : Int} {fs : List (String × Json)}
    {p : PaymentPromise} (h : validatePaymentPromise today (.obj fs) = .ok p) :
    slookup "amount" fs = some (.num p.amount)
    ∧ ∃ d : Rat, slookup "promise_date" fs = some (.num d) ∧ d.den = 1
        ∧ d.num = p.promise_date ∧ ¬(d.num < today) := by
  unfold validatePaymentPromise at h
  split at h
  · rename_i fs' heq0
    obtain rfl : fs' = fs := (Json.obj.inj heq0).symm
    split at h <;> try exact Except.noConfusion h
    split at h <;> try exact Except.noConfusion h
    split at h <;> try exact Except.noConfusion h
    split at h <;> try exact Except.noConfusion h
    split at h <;> try exact Except.noConfusion h
    obtain rfl : (⟨_, _⟩ : PaymentPromise) = p := Except.ok.inj h
    exact ⟨by assumption, ⟨_, by assumption, by assumption, rfl, by assumption⟩⟩
  · rename_i hno
    exact (hno fs rfl).elim

/-! ## Validator claims -/

/-- The input on which the promise biconditional fails in the program:
`promise_made` is true but the `promise` key is omitted entirely. -/
def promiseMissingFs : List (String × Json) :=
  [("confirmed_identity", .bool true),
   ("speaking_with_debtor", .bool true),
   ("outcome", .str "other"),
   ("promise_made", .bool true),
   ("debtor_sentiment", .num 3),
   ("call_summary", .str "abcdefghij"),
   ("final_state", .str "closing")]

/-- C1: the claimed strict biconditional fails in the code: when the
`promise` key is absent, pydantic applies the default `None` without
running `validate_promise_consistency` (`validate_default` is False), so an
input with `promise_made` true and no `promise` key validates successfully
to a value with `promise_made = true` and `promise = none` — even though
the validator's own docstring and error message ("promise must be set when
promise_made is True") show rejection is the intent.  The same input with
an explicit null promise is still rejected, because a supplied value does
run the validator. -/
theorem c1_promise_default_skips_validator :
    validateCallExtraction 0 (.obj promiseMissingFs) =
      .ok { confirmed_identity := true, speaking_with_debtor := true,
            wrong_number := false, outcome := .other, promise_made := true,
            promise := none, hardship_reason := none, dispute_reason := none,
            callback_requested := false, preferred_callback_time := none,
            requested_no_calls := false, debtor_sentiment := 3,
            call_summary := "abcdefghij", final_state := .closing }
    ∧ (∀ x, validateCallExtraction 0
          (.obj (promiseMissingFs ++ [("promise", .null)])) ≠ .ok x) := by
  constructor
  · rfl
  · intro x h
    have hev : validateCallExtraction 0 (.obj (promiseMissingFs ++ [("promise", .null)]))
        = .error "promise must be set when promise_made is True" := rfl
    rw [hev] at h
    exact Except.noConfusion h

/-- C2: a `PaymentPromise` constructed by validation has a positive amount
and a date no earlier than the validator clock `today`; a non-positive
amount or a date strictly before `today` is rejected; and a null or missing
promise skips the nested validation entirely, succeeding with `none` for
any clock value. -/
theorem c2_promise_invariants (today : Int) :
    (∀ (j : Json) (p : PaymentPromise), validatePaymentPromise today j = .ok p →
        0 < p.amount ∧ today ≤ p.promise_date)
    ∧ (∀ (fs : List (String × Json)) (q : Rat),
        slookup "amount" fs = some (.num q) → q ≤ 0 →
        ∀ p, validatePaymentPromise today (.obj fs) ≠ .ok p)
    ∧ (∀ (fs : List (String × Json)) (d : Rat),
        slookup "promise_date" fs = some (.num d) → d.den = 1 → d.num < today →
        ∀ p, validatePaymentPromise today (.obj fs) ≠ .ok p)
    ∧ (∀ fs : List (String × Json),
        (slookup "promise" fs = none ∨ slookup "promise" fs = some .null) →
        promiseField today fs = .ok none) := by
  refine ⟨fun j p h => validatePaymentPromise_ok h, ?_, ?_, ?_⟩
  · intro fs q hq hle p hok
    obtain ⟨hA, -⟩ := validatePaymentPromise_ok_lookups hok
    have hqa : q = p.amount := by simpa using hq.symm.trans hA
    have := (validatePaymentPromise_ok hok).1
    rw [← hqa] at this
    exact absurd this (not_lt.mpr hle)
  · intro fs d hd hden hlt p hok
    obtain ⟨-, d', hD, -, -, hnlt⟩ := validatePaymentPromise_ok_lookups hok
    have hdd : d = d' := by simpa using hd.symm.trans hD
    rw [hdd] at hlt
    exact absurd hlt hnlt
  · intro fs hnull
    unfold promiseField
    rcases hnull with hx | hx <;> rw [hx]

/-- C2 witness: amount 10 promised for day 7 validates against clock 5 and
satisfies both bounds. -/
theorem c2_witness :
    (0 : Rat) < (⟨10, 7⟩ : PaymentPromise).amount
    ∧ (5 : Int) ≤ (⟨10, 7⟩ : PaymentPromise).promise_date :=
  (c2_promise_invariants 5).1
    (.obj [("amount", .num 10), ("promise_date", .num 7)]) ⟨10, 7⟩ (by rfl)

/-- C7: validation bounds the sentiment to [1, 5] and the summary length to
[10, 500] and copies both fields verbatim from the input; sentiment 1 and 5
and summary lengths 10 and 500 are accepted at the boundary, while any
sentiment outside [1, 5] (in particular 0 and 6) and summary lengths 9 and
501 are rejected. -/
theorem c7_boundary_values (today : Int) :
    (∀ (fs : List (String × Json)) (x : CallExtraction),
        validateCallExtraction today (.obj fs) = .ok x →
        (1 ≤ x.debtor_sentiment ∧ x.debtor_sentiment ≤ 5
         ∧ 10 ≤ x.call_summary.length ∧ x.call_summary.length ≤ 500)
        ∧ (∀ q : Rat, slookup "debtor_sentiment" fs = some (.num q) →
            q.num = x.debtor_sentiment)
        ∧ (∀ s : String, slookup "call_summary" fs = some (.str s) → s = x.call_summary))
    ∧ validateCallExtraction today (.obj (exFs 1 sum10)) = .ok (exX 1 sum10)
    ∧ validateCallExtraction today (.obj (exFs 5 sum10)) = .ok (exX 5 sum10)
    ∧ validateCallExtraction today (.obj (exFs 3 sum500)) = .ok (exX 3 sum500)
    ∧ (∀ n : Int, n < 1 ∨ 5 < n →
        ∀ x, validateCallExtraction today (.obj (exFs n sum10)) ≠ .ok x)
    ∧ (∀ x, validateCallExtraction today (.obj (exFs 3 sum9)) ≠ .ok x)
    ∧ (∀ x, validateCallExtraction today (.obj (exFs 3 sum501)) ≠ .ok x) := by
  refine ⟨?_, ?_, ?_, ?_, ?_, ?_, ?_⟩
  · intro fs x h
    obtain ⟨-, -, -, -, -, -, -, -, -, -, -, hsent, hsum, -⟩ :=
      validateCallExtraction_ok_inv h
    obtain ⟨hs1, hs5, q', hq', hden', hnum'⟩ := sentimentField_ok hsent
    obtain ⟨hl, hu, hsl⟩ := summaryField_ok hsum
    refine ⟨⟨hs1, hs5, hl, hu⟩, ?_, ?_⟩
    · intro q hq
      have hqq : q = q' := by simpa using hq.symm.trans hq'
      rw [hqq, hnum']
    · intro s hs
      simpa using hs.symm.trans hsl
  · exact exFs_accepted today 1 sum10 (by omega) (by omega)
      (by rw [sum10_length]) (by rw [sum10_length]; omega)
  · exact exFs_accepted today 5 sum10 (by omega) (by omega)
      (by rw [sum10_length]) (by rw [sum10_length]; omega)
  · exact exFs_accepted today 3 sum500 (by omega) (by omega)
      (by rw [sum500_length]; omega) (by rw [sum500_length])
  · intro n hn x h
    obtain ⟨-, -, -, -, -, -, -, -, -, -, -, hsent, -, -⟩ :=
      validateCallExtraction_ok_inv h
    obtain ⟨hs1, hs5, q', hq', hden', hnum'⟩ := sentimentField_ok hsent
    have hq : slookup "debtor_sentiment" (exFs n sum10) = some (.num (n : Rat)) := by
      simp [exFs, slookup]
    have hqq : (n : Rat) = q' := by simpa using hq.symm.trans hq'
    rw [← hqq, Rat.num_intCast] at hnum'
    rcases hn with hn | hn <;> omega
  · intro x h
    obtain ⟨-, -, -, -, -, -, -, -, -, -, -, -, hsum, -⟩ :=
      validateCallExtraction_ok_inv h
    obtain ⟨hl, -, hsl⟩ := summaryField_ok hsum
    have hq : slookup "call_summary" (exFs 3 sum9) = some (.str sum9) := by
      simp [exFs, slookup]
    have hss : sum9 = x.call_summary := by simpa using hq.symm.trans hsl
    rw [← hss, sum9_length] at hl
    omega
  · intro x h
    obtain ⟨-, -, -, -, -, -, -, -, -, -, -, -, hsum, -⟩ :=
      validateCallExtraction_ok_inv h
    obtain ⟨-, hu, hsl⟩ := summaryField_ok hsum
    have hq : slookup "call_summary" (exFs 3 sum501) = some (.str sum501) := by
      simp [exFs, slookup]
    have hss : sum501 = x.call_summary := by simpa using hq.symm.trans hsl
    rw [← hss, sum501_length] at hu
    omega

/-- C7 witness: sentiment 1 and 5 accepted, 0 and 6 rejected, at clock 0. -/
theorem c7_witness :
    validateCallExtraction 0 (.obj (exFs 1 sum10)) = .ok (exX 1 sum10)
    ∧ validateCallExtraction 0 (.obj (exFs 5 sum10)) = .ok (exX 5 sum10)
    ∧ (∀ x, validateCallExtraction 0 (.obj (exFs 0 sum10)) ≠ .ok x)
    ∧ (∀ x, validateCallExtraction 0 (.obj (exFs 6 sum10)) ≠ .ok x) := by
  have h := c7_boundary_values 0
  exact ⟨h.2.1, h.2.2.1, h.2.2.2.2.1 0 (by omega), h.2.2.2.2.1 6 (by omega)⟩

/-- C8: serializing a valid `CallExtraction` to JSON and validating the
result succeeds and returns the identical value, provided the promise date
is still not in the past at the second validation. -/
theorem c8_roundtrip (today : Int) (x : CallExtraction) (hv : x.Valid today) :
    validateCallExtraction today (dumpExtraction x) = .ok x := by
  obtain ⟨ci, sd, wn, oc, pm, pr, hr, dr, cb, pct, rnc, ds, cs, fst⟩ := x
  obtain ⟨hiff, hp, hh, hd, hpc, hs1, hs5, hl10, hl500⟩ := hv
  rcases pr with _ | p
  · have hpm : pm = false := by
      cases hpmv : pm
      · rfl
      · have := hiff.mp (by exact hpmv)
        simp at this
    subst hpm
    rcases hr with _ | s1 <;> rcases dr with _ | s2 <;> rcases pct with _ | s3 <;>
      simp_all [validateCallExtraction, dumpExtraction, reqBoolField, optBoolField,
        optStrField, outcomeField, finalStateField, reqIntField, sentimentField,
        reqStrField, summaryField, promiseField, promiseConsistencyStep,
        checkPromiseConsistency, slookup, Bind.bind, Except.bind]
  · have hpm : pm = true := hiff.mpr (by simp)
    subst hpm
    obtain ⟨hp1, hp2⟩ := hp
    have hnlt : ¬(p.promise_date < today) := by omega
    rcases hr with _ | s1 <;> rcases dr with _ | s2 <;> rcases pct with _ | s3 <;>
      (dsimp only at hh hd hpc hs1 hs5 hl10 hl500;
       simp [validateCallExtraction, dumpExtraction, reqBoolField, optBoolField,
        optStrField, outcomeField, finalStateField, reqIntField, sentimentField,
        reqStrField, summaryField, promiseField, promiseConsistencyStep,
        checkPromiseConsistency, slookup,
        Bind.bind, Except.bind, Except.map, validatePaymentPromise, dumpPromise,
        hh, hd, hpc, hs1, hs5, hl10, hl500, hp1, hnlt])

/-- The concrete fixture satisfies every validity invariant at clock 0. -/
theorem extractionEx_valid : extractionEx.Valid 0 :=
  ⟨by decide, ⟨by decide, by decide⟩, trivial, trivial, trivial,
   by decide, by decide, by decide, by decide⟩

/-- C8 witness: the round trip at the concrete valid fixture. -/
theorem c8_witness :
    validateCallExtraction 0 (dumpExtraction extractionEx) = .ok extractionEx :=
  c8_roundtrip 0 extractionEx extractionEx_valid
